import Mathlib

/-!
Shallow embedding of src/app.ts (a small observable project store with a
validated input form and status-filtered list views), together with proofs
of the specified properties.

Modelling conventions:
* TypeScript string/number union values are embedded as the inductive
  JsValue; `typeof v === "string"` becomes a constructor test.
* JS numbers that the claims exercise are integers, embedded as Int; the
  coercion `+s` from string to number is kept abstract as a parameter
  toNumber, since only the control flow around it matters.
* `Math.random().toString()` is embedded as an explicit stream of id
  strings supplied to each addProject call.
* Listener callbacks are embedded by their identity (a type parameter L);
  a mutation returns, besides the new state, the ordered log of
  (listener, delivered snapshot) invocations.
* For the aliasing claims, arrays and Project objects are given an
  explicit heap: cells addressed by Nat refs, `slice()` allocates a fresh
  array cell holding a copy of the ref list (a shallow copy, as in JS).
-/

namespace TsMini

/-- Status enum from app.ts (enum ProjectStatus). -/
inductive ProjectStatus where
  | Active
  | Finished
deriving DecidableEq, Repr

/-- The Project class from app.ts: id, title, description, people, status. -/
structure Project where
  id : String
  title : String
  description : String
  people : Int
  status : ProjectStatus
deriving DecidableEq, Repr

instance : Inhabited Project := ⟨⟨"", "", "", 0, ProjectStatus.Active⟩⟩

/-- A TypeScript string-or-number value (the type of Validatable.value). -/
inductive JsValue where
  | str (s : String)
  | num (n : Int)
deriving DecidableEq, Repr

/-- JS .toString() on a string-or-number value. -/
def JsValue.toStr : JsValue → String
  | .str s => s
  | .num n => toString n

/-- JS String.prototype.trim: drop whitespace from both ends of the
string. Embedded structurally over the character list (Lean's own
String.trim is defined by well-founded recursion on byte positions,
which blocks kernel evaluation of concrete instances). -/
def jsTrim (s : String) : String :=
  ⟨((s.data.dropWhile Char.isWhitespace).reverse.dropWhile
      Char.isWhitespace).reverse⟩

/-- The Validatable interface from app.ts. -/
structure Validatable where
  value : JsValue
  required : Bool
  minLength : Option Int
  maxLength : Option Int
  min : Option Int
  max : Option Int
deriving DecidableEq, Repr

/-- The validate function from app.ts, clause for clause: a running
Boolean isValid, conjoined with each rule whose guard
(constraint present, and for the length/range rules a typeof test)
holds. -/
def validate (validatableInput : Validatable) : Bool :=
  let isValid := true
  let isValid :=
    if validatableInput.required then
      isValid && ((jsTrim validatableInput.value.toStr).length != 0)
    else isValid
  let isValid :=
    match validatableInput.minLength, validatableInput.value with
    | some m, .str s => isValid && decide ((s.length : Int) > m)
    | _, _ => isValid
  let isValid :=
    match validatableInput.maxLength, validatableInput.value with
    | some m, .str s => isValid && decide ((s.length : Int) < m)
    | _, _ => isValid
  let isValid :=
    match validatableInput.min, validatableInput.value with
    | some m, .num n => isValid && decide (n > m)
    | _, _ => isValid
  let isValid :=
    match validatableInput.max, validatableInput.value with
    | some m, .num n => isValid && decide (n < m)
    | _, _ => isValid
  isValid

/-- The claim's reading of validate: a conjunction of the applicable
rules, every bound strict. Stated from the spec's words, to be compared
with the source-shaped validate. -/
def validSpec (v : Validatable) : Prop :=
  (v.required = true → (jsTrim v.value.toStr).length ≠ 0) ∧
  (∀ m s, v.minLength = some m → v.value = .str s → (s.length : Int) > m) ∧
  (∀ m s, v.maxLength = some m → v.value = .str s → (s.length : Int) < m) ∧
  (∀ m n, v.min = some m → v.value = .num n → n > m) ∧
  (∀ m n, v.max = some m → v.value = .num n → n < m)

/-- The title Validatable built in ProjectInput.gatherUserInput:
value = entered title, required only. -/
def titleValidatable (enteredTitle : String) : Validatable :=
  { value := .str enteredTitle, required := true,
    minLength := none, maxLength := none, min := none, max := none }

/-- The description Validatable built in ProjectInput.gatherUserInput:
required and minLength = 5. -/
def descriptionValidatable (enteredDescription : String) : Validatable :=
  { value := .str enteredDescription, required := true,
    minLength := some 5, maxLength := none, min := none, max := none }

/-- The people Validatable built in ProjectInput.gatherUserInput: the
value is the raw input string (not coerced), with required, max = 5 and
min = 2. -/
def peopleValidatable (enteredPeople : String) : Validatable :=
  { value := .str enteredPeople, required := true,
    minLength := none, maxLength := none, min := some 2, max := some 5 }

/-- ProjectInput.gatherUserInput: if all three fields validate, alert and
return no value (none); otherwise return the tuple
[title, description, +people]. toNumber stands for the JS unary-plus
string-to-number coercion. -/
def gatherUserInput (toNumber : String → Int)
    (enteredTitle enteredDescription enteredPeople : String) :
    Option (String × String × Int) :=
  if validate (titleValidatable enteredTitle) &&
      validate (descriptionValidatable enteredDescription) &&
      validate (peopleValidatable enteredPeople) then
    none
  else
    some (enteredTitle, enteredDescription, toNumber enteredPeople)

/-- The observable store (class State plus class ProjectState), with
listener callbacks embedded by identity of type L. -/
structure ProjectState (L : Type) where
  listeners : List L
  projects : List Project
deriving Repr

/-- State.addListener: push the callback, no duplicate detection. -/
def ProjectState.addListener {L : Type} (s : ProjectState L) (listenerFn : L) :
    ProjectState L :=
  { s with listeners := s.listeners ++ [listenerFn] }

/-- ProjectState.addProject: build a new Project with the generated id
(randomId embeds the result of Math.random().toString()) and status
Active, push it, then call every registered listener in order with
this.projects.slice(). Returns the new state and the ordered invocation
log (listener, delivered snapshot). -/
def ProjectState.addProject {L : Type} (s : ProjectState L) (randomId : String)
    (title description : String) (numberOfPeople : Int) :
    ProjectState L × List (L × List Project) :=
  let newProject : Project :=
    { id := randomId, title := title, description := description,
      people := numberOfPeople, status := ProjectStatus.Active }
  let projects := s.projects ++ [newProject]
  ({ s with projects := projects },
   s.listeners.map (fun listenerFn => (listenerFn, projects)))

/-- The three bound input fields of ProjectInput. -/
structure FormFields where
  titleInput : String
  descriptionInput : String
  peopleInput : String
deriving DecidableEq, Repr

/-- Outcome of one ProjectInput.submitHandler run: the form fields after
the run, the store state after the run, whether the alert fired, and the
listener invocation log of the addProject call (empty when none was
made). -/
structure SubmitResult (L : Type) where
  form : FormFields
  state : ProjectState L
  alerted : Bool
  notifications : List (L × List Project)

/-- ProjectInput.submitHandler: gather user input; when it returned a
tuple, log-and-call projectState.addProject with it and clear the three
inputs; otherwise (the alert path inside gatherUserInput) do nothing
further. -/
def submitHandler {L : Type} (toNumber : String → Int) (randomId : String)
    (form : FormFields) (s : ProjectState L) : SubmitResult L :=
  match gatherUserInput toNumber form.titleInput form.descriptionInput
      form.peopleInput with
  | some (title, desc, people) =>
      let out := s.addProject randomId title desc people
      { form := { titleInput := "", descriptionInput := "", peopleInput := "" },
        state := out.1, alerted := false, notifications := out.2 }
  | none =>
      { form := form, state := s, alerted := true, notifications := [] }

/-- The snapshot filter installed by ProjectList.configure: keep the
projects whose status matches the view's type string ("active" keeps
Active; any other type string, in particular the "finished " used in
app.ts, keeps Finished). -/
def relevantProjects (type : String) (projects : List Project) : List Project :=
  projects.filter (fun prj =>
    if type == "active" then prj.status == ProjectStatus.Active
    else prj.status == ProjectStatus.Finished)

/-- The ProjectItem.persons getter: "1 Person" when people = 1, else
the interpolated plural string. -/
def persons (people : Int) : String :=
  if people = 1 then "1 Person" else toString people ++ " persons"

/-- Run a sequence of addProject calls. rnd is the stream of
Math.random().toString() results, consumed from index k on; returns the
final state and, per call, its listener invocation log. -/
def runAddsFrom {L : Type} (rnd : Nat → String) (k : Nat) (s : ProjectState L) :
    List (String × String × Int) → ProjectState L × List (List (L × List Project))
  | [] => (s, [])
  | (t, d, p) :: rest =>
      let out := s.addProject (rnd k) t d p
      let res := runAddsFrom rnd (k + 1) out.1 rest
      (res.1, out.2 :: res.2)

/-- The projects a run of addProject calls creates, in call order, with
ids drawn from the stream from index k on. -/
def createdFrom (rnd : Nat → String) (k : Nat) :
    List (String × String × Int) → List Project
  | [] => []
  | (t, d, p) :: rest =>
      { id := rnd k, title := t, description := d, people := p,
        status := ProjectStatus.Active } :: createdFrom rnd (k + 1) rest

/-- A reference to a Project object on the heap. -/
abbrev ProjRef := Nat

/-- A reference to a JS array on the heap. -/
abbrev ArrRef := Nat

/-- Explicit heap for the aliasing claims: Project objects and arrays of
Project references, addressed by position. Allocation appends a cell. -/
structure Heap where
  projCells : List Project
  arrCells : List (List ProjRef)
deriving Repr

def Heap.getProj (h : Heap) (r : ProjRef) : Project :=
  h.projCells.getD r default

def Heap.allocProj (h : Heap) (p : Project) : Heap × ProjRef :=
  ({ h with projCells := h.projCells ++ [p] }, h.projCells.length)

def Heap.setProj (h : Heap) (r : ProjRef) (p : Project) : Heap :=
  { h with projCells := h.projCells.set r p }

def Heap.getArr (h : Heap) (r : ArrRef) : List ProjRef :=
  h.arrCells.getD r []

def Heap.allocArr (h : Heap) (v : List ProjRef) : Heap × ArrRef :=
  ({ h with arrCells := h.arrCells ++ [v] }, h.arrCells.length)

def Heap.setArr (h : Heap) (r : ArrRef) (v : List ProjRef) : Heap :=
  { h with arrCells := h.arrCells.set r v }

/-- The store as it lives on the heap: its projects field is an array
cell holding Project references. -/
structure HProjectState (L : Type) where
  listeners : List L
  projectsRef : ArrRef

/-- The notification loop of addProject on the heap: for each listener in
order, this.projects.slice() allocates a fresh array cell holding a copy
of the store array's current reference list (a shallow copy: the Project
references themselves are shared), and the listener is invoked with that
fresh cell. -/
def notifySlices {L : Type} (storeRef : ArrRef) (h : Heap) :
    List L → Heap × List (L × ArrRef)
  | [] => (h, [])
  | l :: rest =>
      let a := h.allocArr (h.getArr storeRef)
      let res := notifySlices storeRef a.1 rest
      (res.1, (l, a.2) :: res.2)

/-- The mutation step of addProject on the heap: allocate the new
Project object and push its reference onto the store's array cell
(this.projects.push(newProject)). -/
def pushHeap {L : Type} (s : HProjectState L) (h : Heap) (np : Project) :
    Heap :=
  let alloc := h.allocProj np
  alloc.1.setArr s.projectsRef (alloc.1.getArr s.projectsRef ++ [alloc.2])

/-- ProjectState.addProject on the heap: allocate the new Project object,
push its reference onto the store's array cell, then notify every
listener with a fresh slice. Returns the final heap and the ordered log
(listener, delivered array cell). -/
def hAddProject {L : Type} (s : HProjectState L) (h : Heap)
    (randomId title description : String) (numberOfPeople : Int) :
    Heap × List (L × ArrRef) :=
  let np : Project :=
    { id := randomId, title := title, description := description,
      people := numberOfPeople, status := ProjectStatus.Active }
  notifySlices s.projectsRef (pushHeap s h np) s.listeners

/-- The store-owned entity values an array cell denotes: dereference each
Project reference it holds. -/
def arrValues (h : Heap) (r : ArrRef) : List Project :=
  (h.getArr r).map h.getProj

/-- C7: validate applies exclusive (strict) bounds — minLength/maxLength
on string values and min/max on number values hold iff the length or
value is strictly beyond the bound — and a field is valid iff every
applicable rule holds (conjunction). -/
theorem C7_validate_strict_conjunction (v : Validatable) :
    validate v = true ↔ validSpec v := by
  obtain ⟨val, req, minL, maxL, mn, mx⟩ := v
  cases val <;> cases req <;> cases minL <;> cases maxL <;> cases mn <;>
    cases mx <;> simp [validate, validSpec] <;> tauto

/-- Witness for C7 at a concrete field: description "abcde" (length 5)
fails the strict minLength-5 rule. -/
theorem C7_witness : validate (descriptionValidatable "abcde") = false := by
  have h := C7_validate_strict_conjunction (descriptionValidatable "abcde")
  rw [Bool.eq_false_iff]
  intro hcontra
  have h5 := (h.mp hcontra).2.1 5 "abcde" rfl rfl
  exact absurd h5 (by decide)

/-- C5: the people field's value reaches validate as the raw input
string, so the number-guarded min and max branches never apply: the
people field is valid iff its trimmed value is non-empty, whatever the
magnitude ("1", "100" and "abc" all pass the declared min 2 / max 5). -/
theorem C5_people_validated_as_string (p : String) :
    validate (peopleValidatable p) = ((jsTrim p).length != 0) ∧
    validate (peopleValidatable "1") = true ∧
    validate (peopleValidatable "100") = true ∧
    validate (peopleValidatable "abc") = true :=
  ⟨rfl, by decide, by decide, by decide⟩

/-- A rendered plural capacity label is never the singular label: its
character list ends in an s, not an n. -/
theorem persons_plural_ne_singular (n : Int) :
    toString n ++ " persons" ≠ "1 Person" := by
  intro hcontra
  have hdata : (toString n).data ++ (" persons").data = "1 Person".data :=
    congrArg String.data hcontra
  have hlast : ((toString n).data ++ (" persons").data).getLast? =
      ("1 Person".data).getLast? := congrArg List.getLast? hdata
  rw [List.getLast?_append_of_ne_nil _ (by decide)] at hlast
  simp at hlast

/-- C9: the ProjectItem capacity label is the singular "1 Person" exactly
when people = 1; every other capacity renders as the numeral followed by
" persons", in particular 2 renders "2 persons" and 0 renders
"0 persons". -/
theorem C9_pluralization (n : Int) :
    (persons n = "1 Person" ↔ n = 1) ∧
    (n ≠ 1 → persons n = toString n ++ " persons") ∧
    persons 2 = "2 persons" ∧ persons 0 = "0 persons" := by
  refine ⟨⟨?_, ?_⟩, ?_, rfl, rfl⟩
  · intro hlab
    by_contra hne
    rw [persons, if_neg hne] at hlab
    exact persons_plural_ne_singular n hlab
  · intro h1
    simp [persons, h1]
  · intro hne
    rw [persons, if_neg hne]

/-- Witness for C9 at capacity 5: the label is the plural "5 persons". -/
theorem C9_witness : persons 5 = "5 persons" :=
  ((C9_pluralization 5).2.1 (by decide)).trans rfl

/-- C6: for every project in a snapshot, the Active view's filter and the
Finished view's filter (type strings "active" and "finished " as
instantiated in app.ts) put it in exactly one of the two derived
subsets: membership in each is equivalent to the matching status, and
the two memberships are mutually exclusive and jointly exhaustive. -/
theorem C6_filter_partition (projects : List Project) (prj : Project)
    (hmem : prj ∈ projects) :
    (prj ∈ relevantProjects "active" projects ↔
      prj.status = ProjectStatus.Active) ∧
    (prj ∈ relevantProjects "finished " projects ↔
      prj.status = ProjectStatus.Finished) ∧
    Xor' (prj ∈ relevantProjects "active" projects)
      (prj ∈ relevantProjects "finished " projects) := by
  have hA : prj ∈ relevantProjects "active" projects ↔
      prj.status = ProjectStatus.Active := by
    simp [relevantProjects, List.mem_filter, hmem]
  have hF : prj ∈ relevantProjects "finished " projects ↔
      prj.status = ProjectStatus.Finished := by
    simp [relevantProjects, List.mem_filter, hmem]
  refine ⟨hA, hF, ?_⟩
  cases hst : prj.status with
  | Active => exact Or.inl ⟨hA.mpr hst, fun hf => by simp [hst] at hF; exact hF hf⟩
  | Finished => exact Or.inr ⟨hF.mpr hst, fun ha => by simp [hst] at hA; exact hA ha⟩

/-- Witness for C6: a concrete Active project lands in the "active"
subset of its singleton snapshot. -/
theorem C6_witness :
    ({ id := "i", title := "t", description := "d", people := 3,
       status := ProjectStatus.Active } : Project) ∈
      relevantProjects "active"
        [{ id := "i", title := "t", description := "d", people := 3,
           status := ProjectStatus.Active }] := by
  have h := C6_filter_partition
    [{ id := "i", title := "t", description := "d", people := 3,
       status := ProjectStatus.Active }]
    { id := "i", title := "t", description := "d", people := 3,
      status := ProjectStatus.Active } (by decide)
  exact h.1.mpr rfl

/-- C1: the submission flow's gating is literally inverted. When all
three fields validate, submitHandler alerts, leaves the store and the
form untouched and notifies nobody; when not all validate, it calls
addProject with the gathered title, description and coerced people
value, and clears all three inputs. -/
theorem C1_submit_gating {L : Type} (toNumber : String → Int)
    (randomId : String) (form : FormFields) (s : ProjectState L) :
    ((validate (titleValidatable form.titleInput) &&
        validate (descriptionValidatable form.descriptionInput) &&
        validate (peopleValidatable form.peopleInput)) = true →
      submitHandler toNumber randomId form s =
        { form := form, state := s, alerted := true, notifications := [] }) ∧
    ((validate (titleValidatable form.titleInput) &&
        validate (descriptionValidatable form.descriptionInput) &&
        validate (peopleValidatable form.peopleInput)) = false →
      submitHandler toNumber randomId form s =
        { form := { titleInput := "", descriptionInput := "",
                    peopleInput := "" },
          state := (s.addProject randomId form.titleInput
            form.descriptionInput (toNumber form.peopleInput)).1,
          alerted := false,
          notifications := (s.addProject randomId form.titleInput
            form.descriptionInput (toNumber form.peopleInput)).2 }) := by
  constructor <;> intro hva <;>
    simp [submitHandler, gatherUserInput, hva]

/-- Witness for C1: an all-valid form ("T", "abcdef", "3") only alerts
and leaves an empty store empty. -/
theorem C1_witness :
    submitHandler (fun _ => 3) "0.1"
        { titleInput := "T", descriptionInput := "abcdef",
          peopleInput := "3" }
        ({ listeners := [], projects := [] } : ProjectState Unit) =
      { form := { titleInput := "T", descriptionInput := "abcdef",
                  peopleInput := "3" },
        state := { listeners := [], projects := [] },
        alerted := true, notifications := [] } :=
  (C1_submit_gating (fun _ => 3) "0.1"
    { titleInput := "T", descriptionInput := "abcdef", peopleInput := "3" }
    { listeners := [], projects := [] }).1 (by decide)

/-- One addProject call logs exactly the registered listeners in order,
and every logged invocation carries the old collection with the new
project appended. -/
theorem addProject_log {L : Type} (s : ProjectState L)
    (randomId title description : String) (numberOfPeople : Int) :
    (s.addProject randomId title description numberOfPeople).2.map
        Prod.fst = s.listeners ∧
    ∀ pr ∈ (s.addProject randomId title description numberOfPeople).2,
      pr.2 = s.projects ++
          [{ id := randomId, title := title, description := description,
             people := numberOfPeople,
             status := ProjectStatus.Active }] := by
  constructor
  · simp [ProjectState.addProject, Function.comp_def]
  · intro pr hpr
    simp only [ProjectState.addProject, List.mem_map] at hpr
    obtain ⟨l, _, hl⟩ := hpr
    subst hl
    rfl

/-- C3: one addProject call invokes exactly the registered listeners,
once per registration and in registration order (the invocation log's
first projections are the listener list itself), and every invocation
receives a snapshot that is the old collection with the new project
appended — in particular one containing the new project. -/
theorem C3_notify_all_in_order {L : Type} (s : ProjectState L)
    (randomId title description : String) (numberOfPeople : Int) :
    (s.addProject randomId title description numberOfPeople).2.map
        Prod.fst = s.listeners ∧
    ∀ pr ∈ (s.addProject randomId title description numberOfPeople).2,
      pr.2 = s.projects ++
          [{ id := randomId, title := title, description := description,
             people := numberOfPeople, status := ProjectStatus.Active }] ∧
      ({ id := randomId, title := title, description := description,
         people := numberOfPeople,
         status := ProjectStatus.Active } : Project) ∈ pr.2 := by
  have h := addProject_log s randomId title description numberOfPeople
  refine ⟨h.1, fun pr hpr => ?_⟩
  exact ⟨h.2 pr hpr,
    (h.2 pr hpr) ▸ List.mem_append_right _ (List.mem_singleton.mpr rfl)⟩

/-- Witness for C3: with the callback registered twice as 7 and once as
9, the log is exactly [7, 7, 9] and the first delivered snapshot holds
the new project. -/
theorem C3_witness :
    (({ listeners := [7, 7, 9], projects := [] } :
        ProjectState Nat).addProject "0.3" "t" "d" 4).2.map Prod.fst =
      [7, 7, 9] ∧
    ({ id := "0.3", title := "t", description := "d", people := 4,
       status := ProjectStatus.Active } : Project) ∈
      ((({ listeners := [7, 7, 9], projects := [] } :
          ProjectState Nat).addProject "0.3" "t" "d" 4).2.getD 0
        (0, [])).2 := by
  have h := C3_notify_all_in_order
    ({ listeners := [7, 7, 9], projects := [] } : ProjectState Nat)
    "0.3" "t" "d" 4
  exact ⟨h.1, (h.2 _ (by decide)).2⟩

/-- C2 evaluated at the failing input: two addProject calls during which
Math.random().toString() yields "0.5" both times produce two stored
entities with the same id, so the code does not guarantee the required
id uniqueness. -/
theorem C2_id_collision :
    ((runAddsFrom (fun _ => "0.5") 0
        ({ listeners := [], projects := [] } : ProjectState Unit)
        [("Build API", "Design the service", 3),
         ("Write docs", "Document it", 2)]).1.projects.map Project.id) =
      ["0.5", "0.5"] := by decide

/-- Run lemma: a sequence of addProject calls appends exactly the created
projects in call order, keeps the listener list, produces one invocation
log per call, and the snapshot delivered at step i is the starting
collection extended by the first i + 1 created projects. -/
theorem runAddsFrom_spec {L : Type} (rnd : Nat → String)
    (inputs : List (String × String × Int)) :
    ∀ (k : Nat) (s : ProjectState L),
      (runAddsFrom rnd k s inputs).1.projects =
          s.projects ++ createdFrom rnd k inputs ∧
      (runAddsFrom rnd k s inputs).1.listeners = s.listeners ∧
      (runAddsFrom rnd k s inputs).2.length = inputs.length ∧
      ∀ i, i < inputs.length →
        ∀ pr ∈ (runAddsFrom rnd k s inputs).2.getD i [],
          pr.2 = s.projects ++ (createdFrom rnd k inputs).take (i + 1) := by
  induction inputs with
  | nil => intro k s; simp [runAddsFrom, createdFrom]
  | cons hd rest ih =>
      obtain ⟨t, d, p⟩ := hd
      intro k s
      have hout :
          (s.addProject (rnd k) t d p).1 =
            { s with projects := s.projects ++
                [{ id := rnd k, title := t, description := d, people := p,
                   status := ProjectStatus.Active }] } := rfl
      have hrec := ih (k + 1) (s.addProject (rnd k) t d p).1
      refine ⟨?_, ?_, ?_, ?_⟩
      · show (runAddsFrom rnd (k + 1) (s.addProject (rnd k) t d p).1
            rest).1.projects = _
        rw [hrec.1, hout, createdFrom]
        simp
      · show (runAddsFrom rnd (k + 1) (s.addProject (rnd k) t d p).1
            rest).1.listeners = _
        rw [hrec.2.1, hout]
      · show ((s.addProject (rnd k) t d p).2 ::
            (runAddsFrom rnd (k + 1) (s.addProject (rnd k) t d p).1
              rest).2).length = rest.length + 1
        simp [hrec.2.2.1]
      · intro i hi pr hpr
        match i with
        | 0 =>
            simp only [runAddsFrom, List.getD_cons_zero] at hpr
            have h3 := (addProject_log s (rnd k) t d p).2 pr hpr
            rw [h3, createdFrom]
            simp
        | Nat.succ j =>
            simp only [runAddsFrom, List.getD_cons_succ] at hpr
            have hj : j < rest.length := by
              simpa using Nat.lt_of_succ_lt_succ hi
            have hstep := hrec.2.2.2 j hj pr hpr
            rw [hstep, hout, createdFrom]
            simp

/-- C8: starting from an empty store, the final collection is exactly
the created projects in call order (append-only; nothing reordered or
removed), and the snapshot every listener receives at step i lists
exactly the first i + 1 created projects in that same order. -/
theorem C8_append_only_order {L : Type} (rnd : Nat → String) (ls : List L)
    (inputs : List (String × String × Int)) :
    (runAddsFrom rnd 0 { listeners := ls, projects := [] }
        inputs).1.projects = createdFrom rnd 0 inputs ∧
    ∀ i, i < inputs.length →
      ∀ pr ∈ (runAddsFrom rnd 0
          ({ listeners := ls, projects := [] } : ProjectState L)
          inputs).2.getD i [],
        pr.2 = (createdFrom rnd 0 inputs).take (i + 1) := by
  have h := runAddsFrom_spec rnd inputs 0
    ({ listeners := ls, projects := [] } : ProjectState L)
  refine ⟨by simpa using h.1, fun i hi pr hpr => ?_⟩
  simpa using h.2.2.2 i hi pr hpr

/-- Witness for C8: a two-call run with one listener; the final
collection is the two created projects in order and the step-0 snapshot
is the first created project alone. -/
theorem C8_witness :
    (runAddsFrom (fun _ => "x") 0
        ({ listeners := [0], projects := [] } : ProjectState Nat)
        [("a", "b", 1), ("c", "d", 2)]).1.projects =
      createdFrom (fun _ => "x") 0 [("a", "b", 1), ("c", "d", 2)] ∧
    ((((runAddsFrom (fun _ => "x") 0
        ({ listeners := [0], projects := [] } : ProjectState Nat)
        [("a", "b", 1), ("c", "d", 2)]).2.getD 0 []).getD 0 (0, [])).2 =
      (createdFrom (fun _ => "x") 0
        [("a", "b", 1), ("c", "d", 2)]).take 1) := by
  have h := C8_append_only_order (fun _ => "x") [0]
    [("a", "b", 1), ("c", "d", 2)]
  exact ⟨h.1, h.2 0 (by decide) _ (by decide)⟩

/-- Reading a set cell at its own index gives the written value. -/
theorem list_getD_set_self {α : Type} (l : List α) (i : Nat) (v d : α)
    (hlt : i < l.length) : (l.set i v).getD i d = v := by
  rw [List.getD_eq_getD_get?, List.get?_eq_getElem?,
    List.getElem?_set_eq_of_lt v hlt]
  rfl

/-- Writing one cell leaves every other index unchanged. -/
theorem list_getD_set_ne {α : Type} (l : List α) (i j : Nat) (v d : α)
    (hne : i ≠ j) : (l.set i v).getD j d = l.getD j d := by
  rw [List.getD_eq_getD_get?, List.getD_eq_getD_get?, List.get?_eq_getElem?,
    List.get?_eq_getElem?, List.getElem?_set_ne hne]

/-- Allocating an array cell leaves existing cells readable unchanged. -/
theorem getArr_allocArr_lt (h : Heap) (v : List ProjRef) (r : ArrRef)
    (hr : r < h.arrCells.length) : (h.allocArr v).1.getArr r = h.getArr r :=
  List.getD_append _ _ _ _ hr

/-- A freshly allocated array cell holds the allocated contents. -/
theorem getArr_allocArr_self (h : Heap) (v : List ProjRef) :
    (h.allocArr v).1.getArr (h.allocArr v).2 = v := by
  show (h.arrCells ++ [v]).getD h.arrCells.length [] = v
  rw [List.getD_append_right _ _ _ _ (Nat.le_refl _), Nat.sub_self]
  rfl

/-- Writing an array cell in range and reading it back gives the write. -/
theorem getArr_setArr_self (h : Heap) (r : ArrRef) (v : List ProjRef)
    (hr : r < h.arrCells.length) : (h.setArr r v).getArr r = v :=
  list_getD_set_self _ _ _ _ hr

/-- Writing one array cell leaves every other array cell unchanged. -/
theorem getArr_setArr_ne (h : Heap) (r r2 : ArrRef) (v : List ProjRef)
    (hne : r ≠ r2) : (h.setArr r v).getArr r2 = h.getArr r2 :=
  list_getD_set_ne _ _ _ _ _ hne

/-- The notification loop: one fresh slice per listener in order, the
fresh cells are the next unused refs, already existing cells keep their
contents, Project objects are untouched, and every delivered cell holds
the store array's contents. -/
theorem notifySlices_spec {L : Type} (storeRef : ArrRef) (ls : List L) :
    ∀ h : Heap, storeRef < h.arrCells.length →
      (notifySlices storeRef h ls).2.map Prod.fst = ls ∧
      (notifySlices storeRef h ls).2.map Prod.snd =
        List.range' h.arrCells.length ls.length ∧
      h.arrCells.length ≤ (notifySlices storeRef h ls).1.arrCells.length ∧
      (∀ r, r < h.arrCells.length →
        (notifySlices storeRef h ls).1.getArr r = h.getArr r) ∧
      (notifySlices storeRef h ls).1.projCells = h.projCells ∧
      ∀ pr ∈ (notifySlices storeRef h ls).2,
        (notifySlices storeRef h ls).1.getArr pr.2 = h.getArr storeRef ∧
        pr.2 < (notifySlices storeRef h ls).1.arrCells.length := by
  induction ls with
  | nil =>
      intro h hv
      simp [notifySlices]
  | cons l rest ih =>
      intro h hv
      have heq : notifySlices storeRef h (l :: rest) =
          ((notifySlices storeRef (h.allocArr (h.getArr storeRef)).1
              rest).1,
           (l, (h.allocArr (h.getArr storeRef)).2) ::
             (notifySlices storeRef (h.allocArr (h.getArr storeRef)).1
               rest).2) := rfl
      have hlen : (h.allocArr (h.getArr storeRef)).1.arrCells.length =
          h.arrCells.length + 1 := by
        simp [Heap.allocArr]
      have hv1 : storeRef <
          (h.allocArr (h.getArr storeRef)).1.arrCells.length := by
        rw [hlen]; exact Nat.lt_succ_of_lt hv
      have hrec := ih (h.allocArr (h.getArr storeRef)).1 hv1
      have hle : h.arrCells.length + 1 ≤
          (notifySlices storeRef (h.allocArr (h.getArr storeRef)).1
            rest).1.arrCells.length := by
        rw [← hlen]; exact hrec.2.2.1
      rw [heq]
      refine ⟨?_, ?_, ?_, ?_, ?_, ?_⟩
      · rw [List.map_cons, hrec.1]
      · rw [List.map_cons, hrec.2.1, hlen, List.length_cons,
          List.range'_succ]
        rfl
      · exact Nat.le_trans (Nat.le_succ _) hle
      · intro r hr
        rw [hrec.2.2.2.1 r (by rw [hlen]; exact Nat.lt_succ_of_lt hr),
          getArr_allocArr_lt h _ r hr]
      · rw [hrec.2.2.2.2.1]
        rfl
      · intro pr hpr
        rcases List.mem_cons.mp hpr with hhd | htl
        · subst hhd
          constructor
          · rw [hrec.2.2.2.1 _ (by rw [hlen]; exact Nat.lt_succ_self _),
              getArr_allocArr_self]
          · exact Nat.lt_of_lt_of_le (Nat.lt_succ_self _) hle
        · have hd := hrec.2.2.2.2.2 pr htl
          refine ⟨?_, hd.2⟩
          rw [hd.1, getArr_allocArr_lt h _ storeRef hv]

/-- Pushing onto the store array keeps the number of array cells. -/
theorem pushHeap_arr_length {L : Type} (s : HProjectState L) (h : Heap)
    (np : Project) :
    (pushHeap s h np).arrCells.length = h.arrCells.length := by
  simp [pushHeap, Heap.allocProj, Heap.setArr]

/-- After the push, the store array holds its old references followed by
the reference of the newly allocated Project object. -/
theorem pushHeap_getArr_store {L : Type} (s : HProjectState L) (h : Heap)
    (np : Project) (hv : s.projectsRef < h.arrCells.length) :
    (pushHeap s h np).getArr s.projectsRef =
      h.getArr s.projectsRef ++ [h.projCells.length] :=
  getArr_setArr_self _ _ _ hv

/-- The push leaves every other array cell unchanged. -/
theorem pushHeap_getArr_ne {L : Type} (s : HProjectState L) (h : Heap)
    (np : Project) (r : ArrRef) (hne : s.projectsRef ≠ r) :
    (pushHeap s h np).getArr r = h.getArr r :=
  getArr_setArr_ne _ _ _ _ hne

/-- The push appends exactly the new Project object to the object
cells. -/
theorem pushHeap_projCells {L : Type} (s : HProjectState L) (h : Heap)
    (np : Project) :
    (pushHeap s h np).projCells = h.projCells ++ [np] := rfl

/-- Full description of one heap-level addProject call: the log pairs
the registered listeners, in order, with consecutively allocated fresh
array cells; the store cell now holds the old references plus the new
object's reference; every delivered cell holds a copy of exactly those
references; and all delivered refs are fresh (at or above the old heap
size). -/
theorem hAddProject_spec {L : Type} (s : HProjectState L) (h : Heap)
    (randomId title description : String) (numberOfPeople : Int)
    (hv : s.projectsRef < h.arrCells.length) :
    (hAddProject s h randomId title description numberOfPeople).2.map
        Prod.fst = s.listeners ∧
    (hAddProject s h randomId title description numberOfPeople).2.map
        Prod.snd = List.range' h.arrCells.length s.listeners.length ∧
    (hAddProject s h randomId title description
        numberOfPeople).1.getArr s.projectsRef =
      h.getArr s.projectsRef ++ [h.projCells.length] ∧
    h.arrCells.length ≤
      (hAddProject s h randomId title description
        numberOfPeople).1.arrCells.length ∧
    (hAddProject s h randomId title description
        numberOfPeople).1.projCells =
      h.projCells ++
        [{ id := randomId, title := title, description := description,
           people := numberOfPeople, status := ProjectStatus.Active }] ∧
    ∀ pr ∈ (hAddProject s h randomId title description numberOfPeople).2,
      (hAddProject s h randomId title description
          numberOfPeople).1.getArr pr.2 =
        h.getArr s.projectsRef ++ [h.projCells.length] ∧
      pr.2 <
        (hAddProject s h randomId title description
          numberOfPeople).1.arrCells.length ∧
      h.arrCells.length ≤ pr.2 := by
  have hv2 : s.projectsRef <
      (pushHeap s h
        { id := randomId, title := title, description := description,
          people := numberOfPeople,
          status := ProjectStatus.Active }).arrCells.length := by
    rw [pushHeap_arr_length]; exact hv
  have hns := notifySlices_spec s.projectsRef s.listeners
    (pushHeap s h
      { id := randomId, title := title, description := description,
        people := numberOfPeople, status := ProjectStatus.Active }) hv2
  have hstore := pushHeap_getArr_store s h
    { id := randomId, title := title, description := description,
      people := numberOfPeople, status := ProjectStatus.Active } hv
  have hunf : hAddProject s h randomId title description numberOfPeople =
      notifySlices s.projectsRef
        (pushHeap s h
          { id := randomId, title := title, description := description,
            people := numberOfPeople, status := ProjectStatus.Active })
        s.listeners := rfl
  rw [hunf]
  refine ⟨hns.1, ?_, ?_, ?_, ?_, ?_⟩
  · rw [hns.2.1, pushHeap_arr_length]
  · rw [hns.2.2.2.1 s.projectsRef hv2, hstore]
  · calc h.arrCells.length =
        (pushHeap s h _).arrCells.length := (pushHeap_arr_length s h _).symm
      _ ≤ _ := hns.2.2.1
  · rw [hns.2.2.2.2.1, pushHeap_projCells]
  · intro pr hpr
    have hd := hns.2.2.2.2.2 pr hpr
    refine ⟨hd.1.trans hstore, hd.2, ?_⟩
    have hmem : pr.2 ∈ List.range' h.arrCells.length s.listeners.length := by
      rw [← pushHeap_arr_length s h
        { id := randomId, title := title, description := description,
          people := numberOfPeople, status := ProjectStatus.Active },
        ← hns.2.1]
      exact List.mem_map_of_mem Prod.snd hpr
    obtain ⟨i, _, hi⟩ := List.mem_range'.mp hmem
    omega

/-- C10: during one heap-level addProject call every registered listener
is passed its own freshly allocated copy of the projects array: the log
lists the listeners in registration order, the delivered array refs are
pairwise distinct and distinct from the store's own array, each holds
the same references as the store array, and overwriting the array one
listener received changes neither the store's array nor the array any
other listener received. -/
theorem C10_fresh_slice_per_listener {L : Type} (s : HProjectState L)
    (h : Heap) (randomId title description : String)
    (numberOfPeople : Int) (hv : s.projectsRef < h.arrCells.length) :
    (hAddProject s h randomId title description numberOfPeople).2.map
        Prod.fst = s.listeners ∧
    ((hAddProject s h randomId title description numberOfPeople).2.map
        Prod.snd).Nodup ∧
    (∀ pr ∈ (hAddProject s h randomId title description numberOfPeople).2,
      pr.2 ≠ s.projectsRef) ∧
    (∀ pr ∈ (hAddProject s h randomId title description numberOfPeople).2,
      (hAddProject s h randomId title description
          numberOfPeople).1.getArr pr.2 =
        (hAddProject s h randomId title description
          numberOfPeople).1.getArr s.projectsRef) ∧
    (∀ pr ∈ (hAddProject s h randomId title description numberOfPeople).2,
      ∀ v, ((hAddProject s h randomId title description
          numberOfPeople).1.setArr pr.2 v).getArr s.projectsRef =
        (hAddProject s h randomId title description
          numberOfPeople).1.getArr s.projectsRef) ∧
    ∀ i j, i < (hAddProject s h randomId title description
        numberOfPeople).2.length →
      j < (hAddProject s h randomId title description
        numberOfPeople).2.length → i ≠ j → ∀ v,
      ((hAddProject s h randomId title description
          numberOfPeople).1.setArr
        (((hAddProject s h randomId title description
            numberOfPeople).2.map Prod.snd).getD i 0) v).getArr
        (((hAddProject s h randomId title description
            numberOfPeople).2.map Prod.snd).getD j 0) =
      (hAddProject s h randomId title description
          numberOfPeople).1.getArr
        (((hAddProject s h randomId title description
            numberOfPeople).2.map Prod.snd).getD j 0) := by
  have hspec := hAddProject_spec s h randomId title description
    numberOfPeople hv
  have hlog : ∀ pr ∈ (hAddProject s h randomId title description
      numberOfPeople).2, pr.2 ≠ s.projectsRef := by
    intro pr hpr
    have hfresh := (hspec.2.2.2.2.2 pr hpr).2.2
    intro heq
    rw [heq] at hfresh
    exact Nat.lt_irrefl _ (Nat.lt_of_lt_of_le hv hfresh)
  have hlistlen : (hAddProject s h randomId title description
      numberOfPeople).2.length = s.listeners.length := by
    have := congrArg List.length hspec.1
    simpa using this
  have hat : ∀ i, i < (hAddProject s h randomId title description
      numberOfPeople).2.length →
      ((hAddProject s h randomId title description
          numberOfPeople).2.map Prod.snd).getD i 0 =
        h.arrCells.length + i := by
    intro i hi
    have hi2 : i < ((hAddProject s h randomId title description
        numberOfPeople).2.map Prod.snd).length := by simpa using hi
    rw [List.getD_eq_getElem _ _ hi2]
    have hi3 : i < (List.range' h.arrCells.length
        s.listeners.length).length := by
      rw [List.length_range']
      omega
    rw [List.getElem_of_eq hspec.2.1 hi2, List.getElem_range'_1]
  refine ⟨hspec.1, ?_, hlog, ?_, ?_, ?_⟩
  · rw [hspec.2.1]
    exact List.nodup_range' _ _
  · intro pr hpr
    rw [(hspec.2.2.2.2.2 pr hpr).1, hspec.2.2.1]
  · intro pr hpr v
    exact getArr_setArr_ne _ _ _ _ (hlog pr hpr)
  · intro i j hi hj hij v
    rw [hat i hi, hat j hj]
    exact getArr_setArr_ne _ _ _ _
      (fun heqq => hij (Nat.add_left_cancel heqq))

/-- Witness for C10: with two listeners 5 and 6 and a store whose array
is cell 0, the call delivers fresh cells in order, and overwriting
listener 5's cell leaves the store's array unchanged. -/
theorem C10_witness :
    (hAddProject ({ listeners := [5, 6], projectsRef := 0 } :
        HProjectState Nat) { projCells := [], arrCells := [[]] }
        "0.7" "t" "d" 2).2.map Prod.fst = [5, 6] ∧
    ((hAddProject ({ listeners := [5, 6], projectsRef := 0 } :
        HProjectState Nat) { projCells := [], arrCells := [[]] }
        "0.7" "t" "d" 2).1.setArr 1 []).getArr 0 =
      (hAddProject ({ listeners := [5, 6], projectsRef := 0 } :
        HProjectState Nat) { projCells := [], arrCells := [[]] }
        "0.7" "t" "d" 2).1.getArr 0 := by
  have hw := C10_fresh_slice_per_listener
    ({ listeners := [5, 6], projectsRef := 0 } : HProjectState Nat)
    { projCells := [], arrCells := [[]] } "0.7" "t" "d" 2 (by decide)
  refine ⟨hw.1, ?_⟩
  have hm : ((5, 1) : Nat × ArrRef) ∈
      (hAddProject ({ listeners := [5, 6], projectsRef := 0 } :
        HProjectState Nat) { projCells := [], arrCells := [[]] }
        "0.7" "t" "d" 2).2 := by decide
  exact hw.2.2.2.2.1 (5, 1) hm []

/-- Frame property of a heap-level addProject call: any array cell other
than the store's own array keeps its contents. -/
theorem hAddProject_frame {L : Type} (s : HProjectState L) (h : Heap)
    (randomId title description : String) (numberOfPeople : Int)
    (r : ArrRef) (hr : r < h.arrCells.length) (hne : r ≠ s.projectsRef)
    (hv : s.projectsRef < h.arrCells.length) :
    (hAddProject s h randomId title description numberOfPeople).1.getArr
        r = h.getArr r := by
  have hv2 : s.projectsRef <
      (pushHeap s h
        { id := randomId, title := title, description := description,
          people := numberOfPeople,
          status := ProjectStatus.Active }).arrCells.length := by
    rw [pushHeap_arr_length]; exact hv
  have hns := notifySlices_spec s.projectsRef s.listeners
    (pushHeap s h
      { id := randomId, title := title, description := description,
        people := numberOfPeople, status := ProjectStatus.Active }) hv2
  have hpr : r <
      (pushHeap s h
        { id := randomId, title := title, description := description,
          people := numberOfPeople,
          status := ProjectStatus.Active }).arrCells.length := by
    rw [pushHeap_arr_length]; exact hr
  have hunf : hAddProject s h randomId title description numberOfPeople =
      notifySlices s.projectsRef
        (pushHeap s h
          { id := randomId, title := title, description := description,
            people := numberOfPeople, status := ProjectStatus.Active })
        s.listeners := rfl
  rw [hunf, hns.2.2.2.1 r hpr,
    pushHeap_getArr_ne s h _ r (fun hx => hne hx.symm)]

/-- Counterexample to C4 as stated: the slice is shallow, so snapshot
and store share the Project objects. With one listener and one add, the
observer overwrites the title of the project reached through its
delivered snapshot cell, and the entity values denoted by the store's
own array change with it — the snapshot is not a fully independent copy
of store-owned state. -/
theorem C4_counterexample :
    (let s : HProjectState Nat := { listeners := [0], projectsRef := 0 };
     let h0 : Heap := { projCells := [], arrCells := [[]] };
     let out := hAddProject s h0 "0.9" "Build API" "Design the service" 3;
     let snapRef : ArrRef := (out.2.getD 0 (0, 0)).2;
     let sharedProj : ProjRef := (out.1.getArr snapRef).getD 0 0;
     let observerMutated : Heap := out.1.setProj sharedProj
       { out.1.getProj sharedProj with title := "hacked" };
     arrValues observerMutated s.projectsRef ≠
       arrValues out.1 s.projectsRef) := by
  decide

/-- C4 amended: snapshots are independent of the store at the array
level only. Overwriting a delivered snapshot cell leaves the store's
array unchanged, and a later addProject call leaves every delivered
snapshot cell unchanged; but each delivered cell holds exactly the same
Project references as the store's array — the entity objects themselves
are shared, not copied. -/
theorem C4_array_level_independence {L : Type} (s : HProjectState L)
    (h : Heap) (randomId title description : String)
    (numberOfPeople : Int) (hv : s.projectsRef < h.arrCells.length) :
    (∀ pr ∈ (hAddProject s h randomId title description numberOfPeople).2,
      ∀ v, ((hAddProject s h randomId title description
          numberOfPeople).1.setArr pr.2 v).getArr s.projectsRef =
        (hAddProject s h randomId title description
          numberOfPeople).1.getArr s.projectsRef) ∧
    (∀ pr ∈ (hAddProject s h randomId title description numberOfPeople).2,
      ∀ (randomId2 title2 description2 : String)
        (numberOfPeople2 : Int),
      (hAddProject s
          (hAddProject s h randomId title description numberOfPeople).1
          randomId2 title2 description2 numberOfPeople2).1.getArr pr.2 =
        (hAddProject s h randomId title description
          numberOfPeople).1.getArr pr.2) ∧
    ∀ pr ∈ (hAddProject s h randomId title description numberOfPeople).2,
      (hAddProject s h randomId title description
          numberOfPeople).1.getArr pr.2 =
        (hAddProject s h randomId title description
          numberOfPeople).1.getArr s.projectsRef := by
  have hspec := hAddProject_spec s h randomId title description
    numberOfPeople hv
  have hlog : ∀ pr ∈ (hAddProject s h randomId title description
      numberOfPeople).2, pr.2 ≠ s.projectsRef := by
    intro pr hpr heq
    have hfresh := (hspec.2.2.2.2.2 pr hpr).2.2
    rw [heq] at hfresh
    exact Nat.lt_irrefl _ (Nat.lt_of_lt_of_le hv hfresh)
  have hv1 : s.projectsRef <
      (hAddProject s h randomId title description
        numberOfPeople).1.arrCells.length :=
    Nat.lt_of_lt_of_le hv hspec.2.2.2.1
  refine ⟨?_, ?_, ?_⟩
  · intro pr hpr v
    exact getArr_setArr_ne _ _ _ _ (hlog pr hpr)
  · intro pr hpr randomId2 title2 description2 numberOfPeople2
    exact hAddProject_frame s _ randomId2 title2 description2
      numberOfPeople2 pr.2 (hspec.2.2.2.2.2 pr hpr).2.1 (hlog pr hpr) hv1
  · intro pr hpr
    rw [(hspec.2.2.2.2.2 pr hpr).1, hspec.2.2.1]

/-- Witness for the amended C4: one listener 3, store array in cell 0;
the delivered snapshot cell 1 survives a second addProject call
unchanged. -/
theorem C4_witness :
    (hAddProject ({ listeners := [3], projectsRef := 0 } :
        HProjectState Nat)
        (hAddProject ({ listeners := [3], projectsRef := 0 } :
          HProjectState Nat) { projCells := [], arrCells := [[]] }
          "0.2" "a" "b" 4).1
        "0.4" "c" "d" 5).1.getArr 1 =
      (hAddProject ({ listeners := [3], projectsRef := 0 } :
        HProjectState Nat) { projCells := [], arrCells := [[]] }
        "0.2" "a" "b" 4).1.getArr 1 := by
  have hw := C4_array_level_independence
    ({ listeners := [3], projectsRef := 0 } : HProjectState Nat)
    { projCells := [], arrCells := [[]] } "0.2" "a" "b" 4 (by decide)
  have hm : ((3, 1) : Nat × ArrRef) ∈
      (hAddProject ({ listeners := [3], projectsRef := 0 } :
        HProjectState Nat) { projCells := [], arrCells := [[]] }
        "0.2" "a" "b" 4).2 := by decide
  exact hw.2.1 (3, 1) hm "0.4" "c" "d" 5

end TsMini
